import Mathlib

/-
Verification development for the CenterStage repository.

The definitions below are a shallow embedding of the repository's core
modules:
  - src/core/center_stage.py  (CropRegion, CenterStageConfig, CenterStageState,
    CenterStageEngine with its update / target-crop / smoothing / apply_crop
    operations),
  - src/core/detector.py      (FaceDetection, DetectionResult, FaceDetector.detect),
  - src/core/tracker.py       (TrackedFace, FaceTracker with init_tracks,
    update, refresh_tracks, clear and IoU association).

Python floats are embedded as exact rationals, pixel coordinates as integers,
Python `int(...)` truncation as an explicit truncation toward zero, and Python
exceptions as `Except` values.  External collaborators (the OpenCV cascade
invocation, cv2.resize, the per-track OpenCV trackers) are passed in as
explicit inputs or oracles, with only the behaviour the code depends on
modelled (for cv2.resize: it raises when the source image has no pixels).
-/

/-! Geometry: CropRegion (src/core/center_stage.py lines 27-88). -/

/-- Framing mode from src/core/center_stage.py (FramingMode). -/
inductive FramingMode where
  | single
  | all
  | closest
deriving DecidableEq

/-- Crop region in normalized coordinates, from center_stage.py (CropRegion). -/
structure CropRegion where
  x : ℚ
  y : ℚ
  width : ℚ
  height : ℚ
deriving DecidableEq

/-- Center point of the region (CropRegion.center). -/
def CropRegion.center (r : CropRegion) : ℚ × ℚ :=
  (r.x + r.width / 2, r.y + r.height / 2)

/-- Full-frame crop region (CropRegion.full_frame). -/
def CropRegion.full_frame : CropRegion :=
  ⟨0, 0, 1, 1⟩

/-- Clamp region to valid bounds, exactly as CropRegion.clamp in the source. -/
def CropRegion.clamp (r : CropRegion) : CropRegion :=
  let x := max 0 (min r.x (1 - r.width))
  let y := max 0 (min r.y (1 - r.height))
  let width := min r.width (1 - x)
  let height := min r.height (1 - y)
  ⟨x, y, width, height⟩

/-- Linear interpolation towards a target region (CropRegion.lerp). -/
def CropRegion.lerp (r target : CropRegion) (factor : ℚ) : CropRegion :=
  ⟨r.x + (target.x - r.x) * factor,
   r.y + (target.y - r.y) * factor,
   r.width + (target.width - r.width) * factor,
   r.height + (target.height - r.height) * factor⟩

/-- Python int() truncates toward zero. -/
def pyInt (q : ℚ) : ℤ :=
  if 0 ≤ q then ⌊q⌋ else ⌈q⌉

/-- Conversion to pixel coordinates (CropRegion.to_pixels). -/
def CropRegion.to_pixels (r : CropRegion) (frame_width frame_height : ℕ) :
    ℤ × ℤ × ℤ × ℤ :=
  (pyInt (r.x * frame_width), pyInt (r.y * frame_height),
   pyInt (r.width * frame_width), pyInt (r.height * frame_height))

/-! Detection data model (src/core/detector.py lines 18-75). -/

/-- A detected face (detector.py, FaceDetection). -/
structure FaceDetection where
  x : ℚ
  y : ℚ
  width : ℚ
  height : ℚ
  confidence : ℚ
  tracking_id : Option ℕ := none
deriving DecidableEq

/-- Face area (FaceDetection.area). -/
def FaceDetection.area (f : FaceDetection) : ℚ :=
  f.width * f.height

/-- Result of face detection on a frame (detector.py, DetectionResult). -/
structure DetectionResult where
  faces : List FaceDetection
  processing_time_ms : ℚ
deriving DecidableEq

/-- Whether any face was detected (DetectionResult.has_faces). -/
def DetectionResult.has_faces (r : DetectionResult) : Bool :=
  !r.faces.isEmpty

/-- Largest face; Python max keeps the first of equals (DetectionResult.primary_face). -/
def DetectionResult.primary_face (r : DetectionResult) : Option FaceDetection :=
  match r.faces with
  | [] => none
  | f :: fs => some (fs.foldl (fun best g => if best.area < g.area then g else best) f)

/-! Center Stage engine (src/core/center_stage.py lines 91-429). -/

/-- Configuration, with the source defaults (CenterStageConfig).
The field aspect embeds the source's configured width/height aspect value. -/
structure CenterStageConfig where
  smoothing : ℚ := 8 / 100
  dead_zone : ℚ := 15 / 1000
  min_zoom : ℚ := 1
  max_zoom : ℚ := 5 / 2
  face_padding : ℚ := 35 / 100
  aspect : ℚ := 16 / 9
  framing_mode : FramingMode := FramingMode.all
  frames_until_reset : ℕ := 60
  enabled : Bool := true
deriving DecidableEq

/-- Internal engine state (CenterStageState). -/
structure CenterStageState where
  current_crop : CropRegion := CropRegion.full_frame
  target_crop : CropRegion := CropRegion.full_frame
  frames_without_face : ℕ := 0
  is_tracking : Bool := false
deriving DecidableEq

/-- The engine object: configuration plus mutable state (CenterStageEngine). -/
structure CenterStageEngine where
  config : CenterStageConfig
  state : CenterStageState
deriving DecidableEq

/-- Reset to full frame (CenterStageEngine.reset). -/
def CenterStageEngine.reset (e : CenterStageEngine) : CenterStageEngine :=
  { e with state := {} }

/-- The faces the target computation uses: the primary face in single mode,
all faces otherwise (first half of _calculate_target_crop). -/
def selected_faces (cfg : CenterStageConfig) (result : DetectionResult) :
    List FaceDetection :=
  match cfg.framing_mode with
  | FramingMode.single =>
    match result.primary_face with
    | none => []
    | some p => [p]
  | _ => result.faces

/-- The crop computed by _calculate_target_crop before the final clamp, for a
non-empty face list f :: fs.  Mirrors the source line by line: union box,
padding, aspect correction (the source reassigns min_x / min_y / region sizes
inside the branch, modelled by the tuple bt), zoom clamp on the width, height
recomputed from the clamped width, and re-centering on the face center. -/
def target_box (cfg : CenterStageConfig) (f : FaceDetection)
    (fs : List FaceDetection) : CropRegion :=
  let min_x0 := fs.foldl (fun a g => min a g.x) f.x
  let min_y0 := fs.foldl (fun a g => min a g.y) f.y
  let max_x0 := fs.foldl (fun a g => max a (g.x + g.width)) (f.x + f.width)
  let max_y0 := fs.foldl (fun a g => max a (g.y + g.height)) (f.y + f.height)
  let padding_x := (max_x0 - min_x0) * cfg.face_padding
  let padding_y := (max_y0 - min_y0) * cfg.face_padding
  let min_x1 := max 0 (min_x0 - padding_x)
  let min_y1 := max 0 (min_y0 - padding_y)
  let max_x1 := min 1 (max_x0 + padding_x)
  let max_y1 := min 1 (max_y0 + padding_y)
  let region_width := max_x1 - min_x1
  let region_height := max_y1 - min_y1
  let current_ratio :=
    if 0 < region_height then region_width / region_height else cfg.aspect
  let bt :=
    if cfg.aspect < current_ratio then
      (min_x1,
       max 0 (min_y1 - (region_width / cfg.aspect - region_height) / 2),
       region_width,
       region_width / cfg.aspect)
    else
      (max 0 (min_x1 - (region_height * cfg.aspect - region_width) / 2),
       min_y1,
       region_height * cfg.aspect,
       region_height)
  let w2 := max (1 / cfg.max_zoom) (min (1 / cfg.min_zoom) bt.2.2.1)
  let h2 := w2 / cfg.aspect
  let face_center_x := (bt.1 + max_x1) / 2
  let face_center_y := (bt.2.1 + max_y1) / 2
  ⟨face_center_x - w2 / 2, face_center_y - h2 / 2, w2, h2⟩

/-- _calculate_target_crop: target box clamped to the frame.  The empty case
is unreachable from update (which requires has_faces); in single mode the
source returns full frame when no primary face exists. -/
def calculate_target_crop (cfg : CenterStageConfig) (result : DetectionResult) :
    CropRegion :=
  match selected_faces cfg result with
  | [] => CropRegion.full_frame
  | f :: fs => (target_box cfg f fs).clamp

/-- Dead-zone-gated interpolation (_smooth_transition). -/
def smooth_transition (cfg : CenterStageConfig) (current target : CropRegion) :
    CropRegion :=
  let dx := |target.center.1 - current.center.1|
  let dy := |target.center.2 - current.center.2|
  let dw := |target.width - current.width|
  if dx + dy + dw < cfg.dead_zone then current
  else (current.lerp target cfg.smoothing).clamp

/-- Per-cycle update (CenterStageEngine.update): returns the crop to apply and
the engine after the call. -/
def CenterStageEngine.update (e : CenterStageEngine) (result : DetectionResult) :
    CropRegion × CenterStageEngine :=
  if e.config.enabled = false then (CropRegion.full_frame, e)
  else
    let s1 :=
      if result.has_faces then
        { e.state with
            target_crop := calculate_target_crop e.config result,
            frames_without_face := 0,
            is_tracking := true }
      else
        let n := e.state.frames_without_face + 1
        if e.config.frames_until_reset ≤ n then
          { e.state with
              frames_without_face := n,
              target_crop := CropRegion.full_frame,
              is_tracking := false }
        else
          { e.state with frames_without_face := n }
    let cur := smooth_transition e.config s1.current_crop s1.target_crop
    (cur, { e with state := { s1 with current_crop := cur } })

/-- Enable or disable Center Stage (CenterStageEngine.set_enabled): stores the
flag and, when disabling, resets the state. -/
def CenterStageEngine.set_enabled (e : CenterStageEngine) (enabled : Bool) :
    CenterStageEngine :=
  let e1 : CenterStageEngine := { e with config := { e.config with enabled := enabled } }
  if enabled then e1 else e1.reset

/-! Frame compositor (CenterStageEngine.apply_crop, center_stage.py lines 327-367).
The frame is represented by its dimensions; cv2.resize raises a cv2.error when
the source image has no pixels, modelled as Except.error. -/

/-- Models cv2.resize: fails exactly when the source has no pixels, otherwise
produces an image of the requested size. -/
def cv2_resize (srcW srcH outW outH : ℤ) : Except Unit (ℤ × ℤ) :=
  if srcW ≤ 0 ∨ srcH ≤ 0 then Except.error () else Except.ok (outW, outH)

/-- apply_crop: pixel conversion, defensive bound clamping, numpy slice and
resize.  The slice frame[y:y+ch, x:x+cw] has cw columns and ch rows when these
are positive and is empty otherwise, so the resize source dimensions are cw, ch. -/
def apply_crop (crop : CropRegion) (frameW frameH : ℕ) (outW outH : ℤ) :
    Except Unit (ℤ × ℤ) :=
  let p := crop.to_pixels frameW frameH
  let x := max 0 (min p.1 ((frameW : ℤ) - p.2.2.1))
  let y := max 0 (min p.2.1 ((frameH : ℤ) - p.2.2.2))
  let cw := min p.2.2.1 ((frameW : ℤ) - x)
  let ch := min p.2.2.2 ((frameH : ℤ) - y)
  cv2_resize cw ch outW outH

/-! Detection cache (FaceDetector.detect, detector.py lines 77-170).
The cascade invocation is an explicit input: a list of detector-space pixel
rectangles, or an error when the underlying detector raises. -/

/-- The FaceDetector object: configuration plus the frame-skip cache. -/
structure FaceDetector where
  min_confidence : ℚ := 1 / 2
  max_faces : ℕ := 5
  last_result : Option DetectionResult := none
  frame_count : ℕ := 0
  detect_interval : ℕ := 3
deriving DecidableEq

/-- Detector-space width the frame is downscaled to (FaceDetector.DETECT_WIDTH). -/
def DETECT_WIDTH : ℕ := 320

/-- The detection pass of detect: downscale geometry, conversion of the raw
detector-space rectangles back to normalized coordinates, truncation to
max_faces in discovery order, tracking_id from the enumeration index. -/
def run_detection (d : FaceDetector) (frameW frameH : ℕ)
    (raw : List (ℤ × ℤ × ℤ × ℤ)) (elapsed : ℚ) : DetectionResult :=
  let small_width : ℚ := DETECT_WIDTH
  let small_height : ℚ := ((frameH * DETECT_WIDTH) / frameW : ℕ)
  ⟨(raw.take d.max_faces).enum.map fun p =>
      ⟨p.2.1 / small_width, p.2.2.1 / small_height,
       p.2.2.2.1 / small_width, p.2.2.2.2 / small_height,
       9 / 10, some p.1⟩,
   elapsed⟩

/-- FaceDetector.detect.  elapsed is the measured processing time; outcome is
what the cascade invocation would produce on this frame (error = it raises).
The counter increment happens before any detector work, so the post state is
returned even when the invocation fails. -/
def FaceDetector.detect (d : FaceDetector) (frameW frameH : ℕ)
    (outcome : Except Unit (List (ℤ × ℤ × ℤ × ℤ))) (elapsed : ℚ)
    (force : Bool) : Except Unit DetectionResult × FaceDetector :=
  let count := d.frame_count + 1
  match d.last_result, force with
  | some prev, false =>
    if count % d.detect_interval ≠ 0 then
      (Except.ok prev, { d with frame_count := count })
    else
      match outcome with
      | Except.error e => (Except.error e, { d with frame_count := count })
      | Except.ok raw =>
        let r := run_detection d frameW frameH raw elapsed
        (Except.ok r, { d with frame_count := count, last_result := some r })
  | _, _ =>
    match outcome with
    | Except.error e => (Except.error e, { d with frame_count := count })
    | Except.ok raw =>
      let r := run_detection d frameW frameH raw elapsed
      (Except.ok r, { d with frame_count := count, last_result := some r })

/-! Multi-face tracker (src/core/tracker.py).  Bounding boxes are pixel-space
integers; the OpenCV tracker objects are summarized by an outcome oracle for
update (none = tracker.update failed on that track). -/

/-- Pixel bounding box (x, y, w, h). -/
abbrev Bbox := ℤ × ℤ × ℤ × ℤ

/-- A face being tracked across frames (tracker.py, TrackedFace). -/
structure TrackedFace where
  tracking_id : ℕ
  bbox : Bbox
  confidence : ℚ
  frames_since_detection : ℕ := 0
  is_lost : Bool := false
deriving DecidableEq

/-- The tracker: the track table in dict insertion order plus the id counter
(tracker.py, FaceTracker). -/
structure FaceTracker where
  tracked_faces : List TrackedFace
  next_id : ℕ
  max_frames_lost : ℕ := 30
deriving DecidableEq

/-- Intersection over union of two pixel boxes (FaceTracker._calculate_iou). -/
def calc_iou (b1 b2 : Bbox) : ℚ :=
  let ix1 := max b1.1 b2.1
  let iy1 := max b1.2.1 b2.2.1
  let ix2 := min (b1.1 + b1.2.2.1) (b2.1 + b2.2.2.1)
  let iy2 := min (b1.2.1 + b1.2.2.2) (b2.2.1 + b2.2.2.2)
  if ix2 ≤ ix1 ∨ iy2 ≤ iy1 then 0
  else
    let inter := (ix2 - ix1) * (iy2 - iy1)
    let union := b1.2.2.1 * b1.2.2.2 + b2.2.2.1 * b2.2.2.2 - inter
    if 0 < union then (inter : ℚ) / (union : ℚ) else 0

/-- Fresh tracks with consecutive identities starting at n, one per detection,
in order (the loop body of init_tracks / the unmatched-detection loop of
refresh_tracks). -/
def init_tracks_from (n : ℕ) : List Bbox → List TrackedFace
  | [] => []
  | b :: bs => ⟨n, b, 1, 0, false⟩ :: init_tracks_from (n + 1) bs

/-- FaceTracker.init_tracks: clears the table and creates one track per
detection, consuming fresh identities. -/
def FaceTracker.init_tracks (t : FaceTracker) (detections : List Bbox) :
    List TrackedFace × FaceTracker :=
  let faces := init_tracks_from t.next_id detections
  (faces, { t with tracked_faces := faces, next_id := t.next_id + detections.length })

/-- One track's step inside FaceTracker.update: age the track, absorb the
tracker outcome, mark lost on failure or when the age exceeds the ceiling.
The boolean is whether the track id was added to lost_ids (removed after the loop). -/
def upd_one (maxLost : ℕ) (outcome : ℕ → Option Bbox) (tr : TrackedFace) :
    TrackedFace × Bool :=
  let fsd := tr.frames_since_detection + 1
  match outcome tr.tracking_id with
  | some b =>
    let tr1 := { tr with
      frames_since_detection := fsd,
      bbox := b,
      confidence := max (1 / 2) (1 - (fsd : ℚ) * (2 / 100)) }
    if maxLost < fsd then ({ tr1 with is_lost := true }, true) else (tr1, false)
  | none =>
    ({ tr with frames_since_detection := fsd, is_lost := true }, true)

/-- FaceTracker.update: steps every track, then removes the lost ones; returns
the surviving tracks and the tracker after the call. -/
def FaceTracker.update (t : FaceTracker) (outcome : ℕ → Option Bbox) :
    List TrackedFace × FaceTracker :=
  let stepped := t.tracked_faces.map (upd_one t.max_frames_lost outcome)
  let kept := (stepped.filter fun p => !p.2).map Prod.fst
  (kept, { t with tracked_faces := kept })

/-- FaceTracker.clear. -/
def FaceTracker.clear (t : FaceTracker) : FaceTracker :=
  { t with tracked_faces := [] }

/-- The inner loop of refresh_tracks that scans the track table for the best
IoU against one detection, skipping already matched tracks; keeps the first
track whose IoU strictly beats the running best and meets the threshold. -/
def bm_step (matched : List ℕ) (det : Bbox) (thr : ℚ) (acc : ℚ × Option ℕ)
    (tr : TrackedFace) : ℚ × Option ℕ :=
  if tr.tracking_id ∈ matched then acc
  else
    let iou := calc_iou tr.bbox det
    if acc.1 < iou ∧ thr ≤ iou then (iou, some tr.tracking_id) else acc

/-- Best unmatched track for one detection (the best_iou / best_track_id scan
of refresh_tracks, starting from best_iou = 0). -/
def best_match (faces : List TrackedFace) (matched : List ℕ) (det : Bbox)
    (thr : ℚ) : Option ℕ :=
  (faces.foldl (bm_step matched det thr) (0, none)).2

/-- Accumulator of the matching loop in refresh_tracks: the track table (which
is updated in place as matches happen) and the matched id sets. -/
structure MatchAcc where
  faces : List TrackedFace
  matched_tracks : List ℕ
  matched_detections : List ℕ
deriving DecidableEq

/-- One iteration of the matching loop of refresh_tracks: p is (index, bbox)
from enumerate(detections). -/
def match_step (thr : ℚ) (acc : MatchAcc) (p : ℕ × Bbox) : MatchAcc :=
  match best_match acc.faces acc.matched_tracks p.2 thr with
  | some tid =>
    { faces := acc.faces.map fun tr =>
        if tr.tracking_id = tid then
          { tr with bbox := p.2, confidence := 1, frames_since_detection := 0 }
        else tr,
      matched_tracks := tid :: acc.matched_tracks,
      matched_detections := p.1 :: acc.matched_detections }
  | none => acc

/-- One iteration of the unmatched-detection loop of refresh_tracks: appends a
fresh track for detections whose index was not matched. -/
def new_track_step (mD : List ℕ) (q : List TrackedFace × ℕ) (p : ℕ × Bbox) :
    List TrackedFace × ℕ :=
  if p.1 ∈ mD then q else (q.1 ++ [⟨q.2, p.2, 1, 0, false⟩], q.2 + 1)

/-- The accumulator state after the whole matching loop of refresh_tracks. -/
def refresh_acc (t : FaceTracker) (detections : List Bbox) (thr : ℚ) : MatchAcc :=
  detections.enum.foldl (match_step thr) ⟨t.tracked_faces, [], []⟩

/-- FaceTracker.refresh_tracks: early returns, then the greedy per-detection
matching loop followed by new-track creation for unmatched detections. -/
def FaceTracker.refresh_tracks (t : FaceTracker) (detections : List Bbox)
    (thr : ℚ := 3 / 10) : List TrackedFace × FaceTracker :=
  if detections.isEmpty then (t.tracked_faces, t)
  else if t.tracked_faces.isEmpty then t.init_tracks detections
  else
    let acc := refresh_acc t detections thr
    let qn := detections.enum.foldl (new_track_step acc.matched_detections)
      ([], t.next_id)
    let allFaces := acc.faces ++ qn.1
    (allFaces, { t with tracked_faces := allFaces, next_id := qn.2 })

/-- The (track id, detection index) association refresh_tracks computes, in
detection order — the observable matching of the code's loop. -/
def refresh_matching (t : FaceTracker) (detections : List Bbox) (thr : ℚ) :
    List (ℕ × ℕ) :=
  ((refresh_acc t detections thr).matched_tracks.zip
    (refresh_acc t detections thr).matched_detections).reverse

/-! Reference formulations of the association step, used to state claim C5.
claimed_global_matching follows the claim's words (globally highest-IoU pair
first, ties to the lower track identity); ordered_greedy is the per-detection
reference the code actually refines. -/

/-- All (track id, detection index, IoU) pairs between the given tracks and
detections.  Follows the claim's description of the candidate pool. -/
def all_pairs (tracks : List (ℕ × Bbox)) (dets : List (ℕ × Bbox)) :
    List (ℕ × ℕ × ℚ) :=
  tracks.flatMap fun tr => dets.map fun d => (tr.1, d.1, calc_iou tr.2 d.2)

/-- The globally best pair: highest IoU, ties to the lower track identity,
then the lower detection index.  Follows the claim's words. -/
def pick_pair : List (ℕ × ℕ × ℚ) → Option (ℕ × ℕ × ℚ)
  | [] => none
  | p :: ps =>
    match pick_pair ps with
    | none => some p
    | some q =>
      if q.2.2 < p.2.2 ∨ (q.2.2 = p.2.2 ∧ (p.1 < q.1 ∨ (p.1 = q.1 ∧ p.2.1 ≤ q.2.1)))
      then some p else some q

/-- The matching described by the claim: repeatedly take the globally best
remaining pair while its IoU is at least the threshold, removing the matched
track and detection from the pools.  Fuel bounds the rounds. -/
def global_greedy (thr : ℚ) : ℕ → List (ℕ × Bbox) → List (ℕ × Bbox) →
    List (ℕ × ℕ)
  | 0, _, _ => []
  | fuel + 1, tracks, dets =>
    match pick_pair (all_pairs tracks dets) with
    | none => []
    | some (tid, did, v) =>
      if thr ≤ v then
        (tid, did) ::
          global_greedy thr fuel (tracks.filter fun p => p.1 ≠ tid)
            (dets.filter fun p => p.1 ≠ did)
      else []

/-- The claim's association algorithm applied to a tracker state. -/
def claimed_global_matching (t : FaceTracker) (detections : List Bbox)
    (thr : ℚ) : List (ℕ × ℕ) :=
  global_greedy thr t.tracked_faces.length
    (t.tracked_faces.map fun tr => (tr.tracking_id, tr.bbox)) detections.enum

/-- First track in the list attaining the maximal IoU with det among those
whose IoU is above the bar a and at least thr, together with that IoU. -/
def pick_above (thr a : ℚ) (det : Bbox) : List (ℕ × Bbox) → Option (ℕ × ℚ)
  | [] => none
  | p :: ps =>
    let v := calc_iou p.2 det
    match pick_above thr a det ps with
    | none => if a < v ∧ thr ≤ v then some (p.1, v) else none
    | some q => if (a < v ∧ thr ≤ v) ∧ q.2 ≤ v then some (p.1, v) else some q

/-- Per-detection greedy association: detections in list order, each assigned
the currently unmatched track of highest IoU (ties to the earliest track in
the table), provided that IoU is positive and at least the threshold. -/
def ordered_greedy (thr : ℚ) (tracks : List (ℕ × Bbox)) :
    List (ℕ × Bbox) → List ℕ → List (ℕ × ℕ)
  | [], _ => []
  | d :: ds, used =>
    match pick_above thr 0 d.2 (tracks.filter fun p => !decide (p.1 ∈ used)) with
    | some q => (q.1, d.1) :: ordered_greedy thr tracks ds (q.1 :: used)
    | none => ordered_greedy thr tracks ds used

/-- Relation between the original track table and the table mid-way through
the matching loop: same identities in the same order, and entries whose id is
not yet matched are untouched. -/
def FacesRel (matched : List ℕ) (orig cur : List TrackedFace) : Prop :=
  List.Forall₂ (fun a b => a.tracking_id = b.tracking_id ∧
    (a.tracking_id ∉ matched → a = b)) orig cur

/-- The (id, bbox) pairs of the tracks still eligible for matching: the track
table with already-matched identities removed. -/
def elig_pairs (matched : List ℕ) (faces : List TrackedFace) : List (ℕ × Bbox) :=
  (faces.filter fun tr => !decide (tr.tracking_id ∈ matched)).map
    fun tr => (tr.tracking_id, tr.bbox)

/-- A concrete tracker-outcome oracle for evaluating FaceTracker.update:
track 1 is followed successfully, every other tracker fails. -/
def c6_update_oracle : ℕ → Option Bbox := fun i =>
  if i = 1 then some (52, 50, 10, 10) else none

/-! Theorems.  Shared clamp lemmas first. -/

/-- After clamp the region satisfies the frame-bound inequalities. -/
theorem clamp_bounds (r : CropRegion) :
    0 ≤ r.clamp.x ∧ 0 ≤ r.clamp.y ∧
      r.clamp.x + r.clamp.width ≤ 1 ∧ r.clamp.y + r.clamp.height ≤ 1 := by
  simp only [CropRegion.clamp]
  refine ⟨le_max_left _ _, le_max_left _ _, ?_, ?_⟩
  · have h := min_le_right r.width (1 - max 0 (min r.x (1 - r.width)))
    linarith
  · have h := min_le_right r.height (1 - max 0 (min r.y (1 - r.height)))
    linarith

/-- Clamp preserves a width that already fits in the frame. -/
theorem clamp_width_eq (r : CropRegion) (hw : r.width ≤ 1) :
    r.clamp.width = r.width := by
  simp only [CropRegion.clamp]
  have hx : max 0 (min r.x (1 - r.width)) ≤ 1 - r.width :=
    max_le (by linarith) (min_le_right _ _)
  exact min_eq_left (by linarith)

/-- Clamp preserves nonnegative width. -/
theorem clamp_width_nonneg (r : CropRegion) (hw : 0 ≤ r.width) :
    0 ≤ r.clamp.width := by
  simp only [CropRegion.clamp]
  have hx : max 0 (min r.x (1 - r.width)) ≤ 1 :=
    max_le (by norm_num) (le_trans (min_le_right _ _) (by linarith))
  exact le_min hw (by linarith)

/-- Clamp preserves nonnegative height. -/
theorem clamp_height_nonneg (r : CropRegion) (hh : 0 ≤ r.height) :
    0 ≤ r.clamp.height := by
  simp only [CropRegion.clamp]
  have hy : max 0 (min r.y (1 - r.height)) ≤ 1 :=
    max_le (by norm_num) (le_trans (min_le_right _ _) (by linarith))
  exact le_min hh (by linarith)

/-- The clamped height is the pre-clamp height cut to what fits below the
clamped top edge. -/
theorem clamp_height_formula (r : CropRegion) :
    r.clamp.height = min r.height (1 - r.clamp.y) := rfl

/-- C9 (amended): r.clamp() always satisfies 0 ≤ x, 0 ≤ y, x + w ≤ 1 and
y + h ≤ 1; the remaining post-clamp inequalities w ≥ 0 and h ≥ 0 hold
whenever the input region has nonnegative width and height (clamp does not
repair a negative input size). -/
theorem c9_clamp_invariant (r : CropRegion) :
    0 ≤ r.clamp.x ∧ 0 ≤ r.clamp.y ∧
      r.clamp.x + r.clamp.width ≤ 1 ∧ r.clamp.y + r.clamp.height ≤ 1 ∧
      (0 ≤ r.width → 0 ≤ r.clamp.width) ∧
      (0 ≤ r.height → 0 ≤ r.clamp.height) := by
  obtain ⟨h1, h2, h3, h4⟩ := clamp_bounds r
  exact ⟨h1, h2, h3, h4, clamp_width_nonneg r, clamp_height_nonneg r⟩

/-- C9 counterexample: for a region with negative size fields, clamp returns a
negative width and height, refuting the claim that w ≥ 0 and h ≥ 0 hold for
arbitrary float inputs. -/
theorem c9_counterexample :
    (CropRegion.clamp ⟨0, 0, -1, -1⟩).width < 0 ∧
      (CropRegion.clamp ⟨0, 0, -1, -1⟩).height < 0 := by
  constructor <;> · simp only [CropRegion.clamp]; norm_num

/-- C9 witness: the amended invariant evaluated at a concrete region with
nonnegative size placed partly outside the frame. -/
theorem c9_witness :
    0 ≤ (CropRegion.clamp ⟨-1/10, 9/10, 1/2, 1/2⟩).x ∧
      0 ≤ (CropRegion.clamp ⟨-1/10, 9/10, 1/2, 1/2⟩).y ∧
      (CropRegion.clamp ⟨-1/10, 9/10, 1/2, 1/2⟩).x +
        (CropRegion.clamp ⟨-1/10, 9/10, 1/2, 1/2⟩).width ≤ 1 ∧
      (CropRegion.clamp ⟨-1/10, 9/10, 1/2, 1/2⟩).y +
        (CropRegion.clamp ⟨-1/10, 9/10, 1/2, 1/2⟩).height ≤ 1 ∧
      0 ≤ (CropRegion.clamp ⟨-1/10, 9/10, 1/2, 1/2⟩).width ∧
      0 ≤ (CropRegion.clamp ⟨-1/10, 9/10, 1/2, 1/2⟩).height := by
  obtain ⟨h1, h2, h3, h4, h5, h6⟩ := c9_clamp_invariant ⟨-1/10, 9/10, 1/2, 1/2⟩
  exact ⟨h1, h2, h3, h4, h5 (by norm_num), h6 (by norm_num)⟩

/-- C3: set_enabled(false) immediately resets both crops to the full-frame
region and clears isTracking, regardless of prior state, and any update call
made while the engine is disabled returns the full-frame region in that same
call. -/
theorem c3_disable_resets (e e2 : CenterStageEngine) (result r2 : DetectionResult) :
    ((e.set_enabled false).state.current_crop = CropRegion.full_frame ∧
      (e.set_enabled false).state.target_crop = CropRegion.full_frame ∧
      (e.set_enabled false).state.is_tracking = false) ∧
    ((e.set_enabled false).update result).1 = CropRegion.full_frame ∧
    (e2.config.enabled = false → (e2.update r2).1 = CropRegion.full_frame) := by
  refine ⟨⟨rfl, rfl, rfl⟩, rfl, fun h => ?_⟩
  simp [CenterStageEngine.update, h]

/-- C3 witness: a concrete mid-tracking engine, disabled and then updated. -/
theorem c3_witness :
    ((CenterStageEngine.set_enabled ⟨{}, ⟨⟨1/4, 1/4, 1/2, 1/2⟩, ⟨1/4, 1/4, 1/2, 1/2⟩, 0, true⟩⟩ false).state.current_crop
        = CropRegion.full_frame ∧
      (CenterStageEngine.set_enabled ⟨{}, ⟨⟨1/4, 1/4, 1/2, 1/2⟩, ⟨1/4, 1/4, 1/2, 1/2⟩, 0, true⟩⟩ false).state.target_crop
        = CropRegion.full_frame ∧
      (CenterStageEngine.set_enabled ⟨{}, ⟨⟨1/4, 1/4, 1/2, 1/2⟩, ⟨1/4, 1/4, 1/2, 1/2⟩, 0, true⟩⟩ false).state.is_tracking
        = false) ∧
    ((CenterStageEngine.set_enabled ⟨{}, ⟨⟨1/4, 1/4, 1/2, 1/2⟩, ⟨1/4, 1/4, 1/2, 1/2⟩, 0, true⟩⟩ false).update ⟨[], 0⟩).1
        = CropRegion.full_frame ∧
    (CenterStageEngine.update ⟨{ enabled := false }, {}⟩ ⟨[], 0⟩).1 = CropRegion.full_frame :=
  ⟨(c3_disable_resets ⟨{}, ⟨⟨1/4, 1/4, 1/2, 1/2⟩, ⟨1/4, 1/4, 1/2, 1/2⟩, 0, true⟩⟩
      ⟨{ enabled := false }, {}⟩ ⟨[], 0⟩ ⟨[], 0⟩).1,
   ((c3_disable_resets ⟨{}, ⟨⟨1/4, 1/4, 1/2, 1/2⟩, ⟨1/4, 1/4, 1/2, 1/2⟩, 0, true⟩⟩
      ⟨{ enabled := false }, {}⟩ ⟨[], 0⟩ ⟨[], 0⟩).2).1,
   ((c3_disable_resets ⟨{}, ⟨⟨1/4, 1/4, 1/2, 1/2⟩, ⟨1/4, 1/4, 1/2, 1/2⟩, 0, true⟩⟩
      ⟨{ enabled := false }, {}⟩ ⟨[], 0⟩ ⟨[], 0⟩).2).2 rfl⟩

/-- C10: when the configuration is disabled, update returns the full-frame
region without mutating any field of the stored state. -/
theorem c10_disabled_update_no_mutation (e : CenterStageEngine)
    (result : DetectionResult) (h : e.config.enabled = false) :
    (e.update result).1 = CropRegion.full_frame ∧
      (e.update result).2.state.current_crop = e.state.current_crop ∧
      (e.update result).2.state.target_crop = e.state.target_crop ∧
      (e.update result).2.state.frames_without_face = e.state.frames_without_face ∧
      (e.update result).2.state.is_tracking = e.state.is_tracking := by
  simp [CenterStageEngine.update, h]

/-- C10 witness: a disabled engine with non-default state and a non-empty
detection result, updated once. -/
theorem c10_witness :
    (CenterStageEngine.update ⟨{ enabled := false }, ⟨⟨1/8, 1/8, 1/2, 1/2⟩, ⟨0, 0, 1/2, 1/2⟩, 7, true⟩⟩
        ⟨[⟨2/5, 3/10, 1/5, 3/10, 9/10, none⟩], 5⟩).1 = CropRegion.full_frame ∧
      (CenterStageEngine.update ⟨{ enabled := false }, ⟨⟨1/8, 1/8, 1/2, 1/2⟩, ⟨0, 0, 1/2, 1/2⟩, 7, true⟩⟩
        ⟨[⟨2/5, 3/10, 1/5, 3/10, 9/10, none⟩], 5⟩).2.state.current_crop = ⟨1/8, 1/8, 1/2, 1/2⟩ ∧
      (CenterStageEngine.update ⟨{ enabled := false }, ⟨⟨1/8, 1/8, 1/2, 1/2⟩, ⟨0, 0, 1/2, 1/2⟩, 7, true⟩⟩
        ⟨[⟨2/5, 3/10, 1/5, 3/10, 9/10, none⟩], 5⟩).2.state.target_crop = ⟨0, 0, 1/2, 1/2⟩ ∧
      (CenterStageEngine.update ⟨{ enabled := false }, ⟨⟨1/8, 1/8, 1/2, 1/2⟩, ⟨0, 0, 1/2, 1/2⟩, 7, true⟩⟩
        ⟨[⟨2/5, 3/10, 1/5, 3/10, 9/10, none⟩], 5⟩).2.state.frames_without_face = 7 ∧
      (CenterStageEngine.update ⟨{ enabled := false }, ⟨⟨1/8, 1/8, 1/2, 1/2⟩, ⟨0, 0, 1/2, 1/2⟩, 7, true⟩⟩
        ⟨[⟨2/5, 3/10, 1/5, 3/10, 9/10, none⟩], 5⟩).2.state.is_tracking = true :=
  c10_disabled_update_no_mutation
    ⟨{ enabled := false }, ⟨⟨1/8, 1/8, 1/2, 1/2⟩, ⟨0, 0, 1/2, 1/2⟩, 7, true⟩⟩
    ⟨[⟨2/5, 3/10, 1/5, 3/10, 9/10, none⟩], 5⟩ rfl

/-- C2 (amended): with the engine enabled and zero faces, update increments
frames_without_face; the target becomes the full-frame region and isTracking
becomes false as soon as the incremented counter reaches (is greater than or
equal to) frames_until_reset, and until then target and isTracking are
retained unchanged. -/
theorem c2_no_face_hold_then_reset (cfg : CenterStageConfig)
    (s : CenterStageState) (ms : ℚ) :
    (CenterStageEngine.update ⟨{ cfg with enabled := true }, s⟩ ⟨[], ms⟩).2.state.frames_without_face
        = s.frames_without_face + 1 ∧
      (if cfg.frames_until_reset ≤ s.frames_without_face + 1 then
        (CenterStageEngine.update ⟨{ cfg with enabled := true }, s⟩ ⟨[], ms⟩).2.state.target_crop
            = CropRegion.full_frame ∧
          (CenterStageEngine.update ⟨{ cfg with enabled := true }, s⟩ ⟨[], ms⟩).2.state.is_tracking
            = false
      else
        (CenterStageEngine.update ⟨{ cfg with enabled := true }, s⟩ ⟨[], ms⟩).2.state.target_crop
            = s.target_crop ∧
          (CenterStageEngine.update ⟨{ cfg with enabled := true }, s⟩ ⟨[], ms⟩).2.state.is_tracking
            = s.is_tracking) := by
  by_cases h : cfg.frames_until_reset ≤ s.frames_without_face + 1 <;>
    simp [CenterStageEngine.update, DetectionResult.has_faces, h]

/-- C2 witness: both branches of the amended behavior at the default
threshold 60, on an engine holding a non-full target mid-tracking.  At
counter 5 the 6th no-face cycle retains the target and isTracking; at counter
59 the 60th no-face cycle resets the target to full frame and clears
isTracking. -/
theorem c2_witness :
    ((CenterStageEngine.update
        ⟨{ ({} : CenterStageConfig) with enabled := true },
          ⟨⟨1/4, 1/4, 1/2, 1/2⟩, ⟨1/4, 1/4, 1/2, 1/2⟩, 5, true⟩⟩
        ⟨[], 0⟩).2.state.frames_without_face = 6 ∧
      (CenterStageEngine.update
        ⟨{ ({} : CenterStageConfig) with enabled := true },
          ⟨⟨1/4, 1/4, 1/2, 1/2⟩, ⟨1/4, 1/4, 1/2, 1/2⟩, 5, true⟩⟩
        ⟨[], 0⟩).2.state.target_crop = ⟨1/4, 1/4, 1/2, 1/2⟩ ∧
      (CenterStageEngine.update
        ⟨{ ({} : CenterStageConfig) with enabled := true },
          ⟨⟨1/4, 1/4, 1/2, 1/2⟩, ⟨1/4, 1/4, 1/2, 1/2⟩, 5, true⟩⟩
        ⟨[], 0⟩).2.state.is_tracking = true) ∧
    ((CenterStageEngine.update
        ⟨{ ({} : CenterStageConfig) with enabled := true },
          ⟨⟨1/4, 1/4, 1/2, 1/2⟩, ⟨1/4, 1/4, 1/2, 1/2⟩, 59, true⟩⟩
        ⟨[], 0⟩).2.state.frames_without_face = 60 ∧
      (CenterStageEngine.update
        ⟨{ ({} : CenterStageConfig) with enabled := true },
          ⟨⟨1/4, 1/4, 1/2, 1/2⟩, ⟨1/4, 1/4, 1/2, 1/2⟩, 59, true⟩⟩
        ⟨[], 0⟩).2.state.target_crop = CropRegion.full_frame ∧
      (CenterStageEngine.update
        ⟨{ ({} : CenterStageConfig) with enabled := true },
          ⟨⟨1/4, 1/4, 1/2, 1/2⟩, ⟨1/4, 1/4, 1/2, 1/2⟩, 59, true⟩⟩
        ⟨[], 0⟩).2.state.is_tracking = false) := by
  have H1 := c2_no_face_hold_then_reset {}
    ⟨⟨1/4, 1/4, 1/2, 1/2⟩, ⟨1/4, 1/4, 1/2, 1/2⟩, 5, true⟩ 0
  have H2 := c2_no_face_hold_then_reset {}
    ⟨⟨1/4, 1/4, 1/2, 1/2⟩, ⟨1/4, 1/4, 1/2, 1/2⟩, 59, true⟩ 0
  rw [if_neg (by decide)] at H1
  rw [if_pos (by decide)] at H2
  exact ⟨⟨H1.1, H1.2.1, H1.2.2⟩, ⟨H2.1, H2.2.1, H2.2.2⟩⟩

/-- C2 counterexample: at the default threshold 60, the 60th consecutive
no-face cycle (counter reaches 60, which does not exceed 60) already resets
the target to full frame and clears isTracking, refuting the claim that the
last target is retained until the counter strictly exceeds the threshold. -/
theorem c2_counterexample :
    (CenterStageEngine.update ⟨{}, ⟨⟨1/4, 1/4, 1/2, 1/2⟩, ⟨1/4, 1/4, 1/2, 1/2⟩, 59, true⟩⟩
        ⟨[], 0⟩).2.state.frames_without_face = 60 ∧
      ¬ (({} : CenterStageConfig).frames_until_reset < 60) ∧
      (CenterStageEngine.update ⟨{}, ⟨⟨1/4, 1/4, 1/2, 1/2⟩, ⟨1/4, 1/4, 1/2, 1/2⟩, 59, true⟩⟩
        ⟨[], 0⟩).2.state.target_crop = CropRegion.full_frame ∧
      (CenterStageEngine.update ⟨{}, ⟨⟨1/4, 1/4, 1/2, 1/2⟩, ⟨1/4, 1/4, 1/2, 1/2⟩, 59, true⟩⟩
        ⟨[], 0⟩).2.state.target_crop ≠ ⟨1/4, 1/4, 1/2, 1/2⟩ ∧
      (CenterStageEngine.update ⟨{}, ⟨⟨1/4, 1/4, 1/2, 1/2⟩, ⟨1/4, 1/4, 1/2, 1/2⟩, 59, true⟩⟩
        ⟨[], 0⟩).2.state.is_tracking = false := by
  refine ⟨rfl, by norm_num, rfl, ?_, rfl⟩
  rw [show (CenterStageEngine.update ⟨{}, ⟨⟨1/4, 1/4, 1/2, 1/2⟩, ⟨1/4, 1/4, 1/2, 1/2⟩, 59, true⟩⟩
        ⟨[], 0⟩).2.state.target_crop = CropRegion.full_frame from rfl]
  simp only [CropRegion.full_frame, ne_eq, CropRegion.mk.injEq]
  norm_num

/-- C8 (code bug): apply_crop on a degenerate crop whose pixel width and
height truncate to zero hands an empty source image to cv2.resize, which
raises; the code contains no fallback, although resizing the full input frame
(the fallback the spec requires, present in the repository's lite and
ultralight variants) would have succeeded. -/
theorem c8_degenerate_crop_raises :
    apply_crop ⟨0, 0, 1/2000, 1/2000⟩ 640 480 640 480 = Except.error () ∧
      cv2_resize 640 480 640 480 = Except.ok (640, 480) := by
  constructor
  · have hx : pyInt (1/2000 * (640 : ℕ)) = 0 := by
      simp only [pyInt]
      norm_num
    have hy : pyInt (1/2000 * (480 : ℕ)) = 0 := by
      simp only [pyInt]
      norm_num
    simp only [apply_crop, CropRegion.to_pixels, hx, hy, cv2_resize]
    norm_num
  · simp only [cv2_resize]
    norm_num

/-- C7 counterexample: with no cached result (so the detector is invoked) and
a raising detector invocation, detect propagates the error instead of
returning the empty DetectionResult the claim requires. -/
theorem c7_counterexample :
    (FaceDetector.detect {} 640 480 (Except.error ()) 5 false).1 = Except.error () ∧
      (FaceDetector.detect {} 640 480 (Except.error ()) 5 false).1 ≠
        Except.ok ⟨[], 5⟩ :=
  ⟨rfl, fun h => Except.noConfusion h⟩

/-- C7 (amended): whenever detect actually invokes the detector (force is
true, or no cached result exists, or the incremented counter is a multiple of
the interval) and the invocation raises, detect propagates the exception to
its caller, retaining the incremented counter and leaving the cache
unchanged; it does not fall back to an empty result. -/
theorem c7_error_propagates (d : FaceDetector) (fw fh : ℕ) (e : Unit)
    (elapsed : ℚ) (force : Bool)
    (h : force = true ∨ d.last_result = none ∨
      (d.frame_count + 1) % d.detect_interval = 0) :
    d.detect fw fh (Except.error e) elapsed force =
      (Except.error e, { d with frame_count := d.frame_count + 1 }) := by
  rcases hl : d.last_result with _ | prev
  · simp [FaceDetector.detect, hl]
  · cases force
    · rcases h with h | h | h
      · exact absurd h (by simp)
      · rw [hl] at h; exact absurd h (by simp)
      · simp [FaceDetector.detect, hl, h]
    · simp [FaceDetector.detect, hl]

/-- C7 witness: a forced call with a raising detector on a fresh detector
object. -/
theorem c7_witness :
    FaceDetector.detect {} 640 480 (Except.error ()) 5 true =
      (Except.error (), { ({} : FaceDetector) with frame_count := 1 }) :=
  c7_error_propagates {} 640 480 () 5 true (Or.inl rfl)

/-- C4: detect always increments the frame counter; when force is false, a
cached result exists and the incremented counter is not a multiple of the
interval, it returns the cached result unchanged without touching the cache;
otherwise, on a successful detector invocation, it converts the detector-space
rectangles to normalized coordinates by dividing by the downscaled frame
dimensions, truncates to max_faces in discovery order (enumeration index as
tracking id), and caches the new result before returning it. -/
theorem c4_detect_contract (d : FaceDetector) (fw fh : ℕ)
    (outcome : Except Unit (List (ℤ × ℤ × ℤ × ℤ))) (elapsed : ℚ) (force : Bool) :
    (d.detect fw fh outcome elapsed force).2.frame_count = d.frame_count + 1 ∧
    (∀ prev, d.last_result = some prev → force = false →
      (d.frame_count + 1) % d.detect_interval ≠ 0 →
      d.detect fw fh outcome elapsed force =
        (Except.ok prev, { d with frame_count := d.frame_count + 1 })) ∧
    (∀ raw, outcome = Except.ok raw →
      (force = true ∨ d.last_result = none ∨
        (d.frame_count + 1) % d.detect_interval = 0) →
      d.detect fw fh outcome elapsed force =
        (Except.ok (run_detection d fw fh raw elapsed),
         { d with frame_count := d.frame_count + 1,
                  last_result := some (run_detection d fw fh raw elapsed) }) ∧
      (run_detection d fw fh raw elapsed).faces.length = min d.max_faces raw.length ∧
      (run_detection d fw fh raw elapsed).faces =
        (raw.take d.max_faces).enum.map (fun p =>
          ⟨(p.2.1 : ℚ) / ((DETECT_WIDTH : ℕ) : ℚ),
           (p.2.2.1 : ℚ) / (((fh * DETECT_WIDTH) / fw : ℕ) : ℚ),
           (p.2.2.2.1 : ℚ) / ((DETECT_WIDTH : ℕ) : ℚ),
           (p.2.2.2.2 : ℚ) / (((fh * DETECT_WIDTH) / fw : ℕ) : ℚ),
           9 / 10, some p.1⟩)) := by
  refine ⟨?_, ?_, ?_⟩
  · rcases hl : d.last_result with _ | prev <;> cases force <;>
      rcases outcome with e | raw <;>
      simp [FaceDetector.detect, hl] <;>
      split <;> simp
  · intro prev hprev hforce hmod
    subst hforce
    simp [FaceDetector.detect, hprev, hmod]
  · intro raw hraw hinv
    subst hraw
    refine ⟨?_, ?_, rfl⟩
    · rcases hl : d.last_result with _ | prev
      · simp [FaceDetector.detect, hl]
      · cases force
        · rcases hinv with h | h | h
          · exact absurd h (by simp)
          · rw [hl] at h; exact absurd h (by simp)
          · simp [FaceDetector.detect, hl, h]
        · simp [FaceDetector.detect, hl]
    · simp [run_detection]

/-- C4 witness: a cached cycle on a detector holding a previous result, and a
forced invocation truncating two raw rectangles to max_faces = 1. -/
theorem c4_witness :
    (FaceDetector.detect ⟨1/2, 5, some ⟨[], 2⟩, 1, 3⟩ 640 480
        (Except.ok [(16, 24, 32, 48)]) 7 false =
      (Except.ok ⟨[], 2⟩, ⟨1/2, 5, some ⟨[], 2⟩, 2, 3⟩)) ∧
    (FaceDetector.detect ⟨1/2, 1, none, 0, 3⟩ 640 480
        (Except.ok [(16, 24, 32, 48), (0, 0, 8, 8)]) 7 true =
      (Except.ok (run_detection ⟨1/2, 1, none, 0, 3⟩ 640 480
          [(16, 24, 32, 48), (0, 0, 8, 8)] 7),
       ⟨1/2, 1, some (run_detection ⟨1/2, 1, none, 0, 3⟩ 640 480
          [(16, 24, 32, 48), (0, 0, 8, 8)] 7), 1, 3⟩)) ∧
    (run_detection ⟨1/2, 1, none, 0, 3⟩ 640 480
        [(16, 24, 32, 48), (0, 0, 8, 8)] 7).faces.length = 1 ∧
    (run_detection ⟨1/2, 1, none, 0, 3⟩ 640 480
        [(16, 24, 32, 48), (0, 0, 8, 8)] 7).faces =
      [⟨1/20, 1/10, 1/10, 1/5, 9/10, some 0⟩] := by
  refine ⟨?_, ?_, ?_, ?_⟩
  · exact (c4_detect_contract ⟨1/2, 5, some ⟨[], 2⟩, 1, 3⟩ 640 480
      (Except.ok [(16, 24, 32, 48)]) 7 false).2.1 ⟨[], 2⟩ rfl rfl (by decide)
  · exact ((c4_detect_contract ⟨1/2, 1, none, 0, 3⟩ 640 480
      (Except.ok [(16, 24, 32, 48), (0, 0, 8, 8)]) 7 true).2.2
      [(16, 24, 32, 48), (0, 0, 8, 8)] rfl (Or.inl rfl)).1
  · have := ((c4_detect_contract ⟨1/2, 1, none, 0, 3⟩ 640 480
      (Except.ok [(16, 24, 32, 48), (0, 0, 8, 8)]) 7 true).2.2
      [(16, 24, 32, 48), (0, 0, 8, 8)] rfl (Or.inl rfl)).2.1
    simpa using this
  · simp [run_detection, DETECT_WIDTH]
    norm_num

/-! C1: lemmas about the target crop, then the claim. -/

/-- When faces were detected, the selected face list is non-empty. -/
theorem selected_faces_ne_nil (cfg : CenterStageConfig)
    (result : DetectionResult) (h4 : result.has_faces = true) :
    selected_faces cfg result ≠ [] := by
  rcases hf : result.faces with _ | ⟨g, gs⟩
  · rw [DetectionResult.has_faces, hf] at h4; simp at h4
  · cases hm : cfg.framing_mode <;>
      simp [selected_faces, hm, DetectionResult.primary_face, hf]

/-- The pre-clamp target width is exactly the zoom clamp applied to some
aspect-corrected union width. -/
theorem target_box_width_shape (cfg : CenterStageConfig) (f : FaceDetection)
    (fs : List FaceDetection) :
    ∃ W, (target_box cfg f fs).width
      = max (1 / cfg.max_zoom) (min (1 / cfg.min_zoom) W) :=
  ⟨_, rfl⟩

/-- The pre-clamp target height is recomputed from the clamped width by the
configured aspect value. -/
theorem target_box_height_eq (cfg : CenterStageConfig) (f : FaceDetection)
    (fs : List FaceDetection) :
    (target_box cfg f fs).height = (target_box cfg f fs).width / cfg.aspect := rfl

/-- C1: for a non-empty face set (and a sane zoom configuration with
1 ≤ minZoom ≤ maxZoom) the target crop has width within [1/maxZoom, 1/minZoom],
its height equals width divided by the configured aspect value except where
the bottom edge clamp cuts it, and the final box lies within [0,1] on both
axes. -/
theorem c1_target_crop_spec (cfg : CenterStageConfig) (result : DetectionResult)
    (h1 : 1 ≤ cfg.min_zoom) (h2 : cfg.min_zoom ≤ cfg.max_zoom)
    (h4 : result.has_faces = true) :
    (1 / cfg.max_zoom ≤ (calculate_target_crop cfg result).width ∧
      (calculate_target_crop cfg result).width ≤ 1 / cfg.min_zoom) ∧
    (calculate_target_crop cfg result).height
      = min ((calculate_target_crop cfg result).width / cfg.aspect)
          (1 - (calculate_target_crop cfg result).y) ∧
    0 ≤ (calculate_target_crop cfg result).x ∧
    0 ≤ (calculate_target_crop cfg result).y ∧
    (calculate_target_crop cfg result).x + (calculate_target_crop cfg result).width ≤ 1 ∧
    (calculate_target_crop cfg result).y + (calculate_target_crop cfg result).height ≤ 1 := by
  have hmz : (0 : ℚ) < cfg.min_zoom := lt_of_lt_of_le one_pos h1
  have hle : 1 / cfg.max_zoom ≤ 1 / cfg.min_zoom := one_div_le_one_div_of_le hmz h2
  have hone : 1 / cfg.min_zoom ≤ 1 := by
    rw [div_le_one hmz]; exact h1
  obtain ⟨f, fs, hsel⟩ :=
    List.exists_cons_of_ne_nil (selected_faces_ne_nil cfg result h4)
  have hcalc : calculate_target_crop cfg result = (target_box cfg f fs).clamp := by
    unfold calculate_target_crop
    rw [hsel]
  obtain ⟨W, hW⟩ := target_box_width_shape cfg f fs
  have hwle1 : (target_box cfg f fs).width ≤ 1 := by
    rw [hW]; exact le_trans (max_le hle (min_le_left _ _)) hone
  have hwidth : ((target_box cfg f fs).clamp).width = (target_box cfg f fs).width :=
    clamp_width_eq _ hwle1
  obtain ⟨b1, b2, b3, b4⟩ := clamp_bounds (target_box cfg f fs)
  rw [hcalc]
  refine ⟨⟨?_, ?_⟩, ?_, b1, b2, b3, b4⟩
  · rw [hwidth, hW]; exact le_max_left _ _
  · rw [hwidth, hW]; exact max_le hle (min_le_left _ _)
  · rw [clamp_height_formula, target_box_height_eq, hwidth]

/-- C1 witness: the default configuration and a single concrete face. -/
theorem c1_witness :
    (1 ≤ ({} : CenterStageConfig).min_zoom ∧
      ({} : CenterStageConfig).min_zoom ≤ ({} : CenterStageConfig).max_zoom ∧
      (DetectionResult.has_faces ⟨[⟨2/5, 3/10, 1/5, 3/10, 9/10, none⟩], 5⟩) = true) ∧
    (1 / ({} : CenterStageConfig).max_zoom ≤
        (calculate_target_crop {} ⟨[⟨2/5, 3/10, 1/5, 3/10, 9/10, none⟩], 5⟩).width ∧
      (calculate_target_crop {} ⟨[⟨2/5, 3/10, 1/5, 3/10, 9/10, none⟩], 5⟩).width ≤
        1 / ({} : CenterStageConfig).min_zoom) ∧
    (calculate_target_crop {} ⟨[⟨2/5, 3/10, 1/5, 3/10, 9/10, none⟩], 5⟩).height
      = min ((calculate_target_crop {} ⟨[⟨2/5, 3/10, 1/5, 3/10, 9/10, none⟩], 5⟩).width
            / ({} : CenterStageConfig).aspect)
          (1 - (calculate_target_crop {} ⟨[⟨2/5, 3/10, 1/5, 3/10, 9/10, none⟩], 5⟩).y) ∧
    0 ≤ (calculate_target_crop {} ⟨[⟨2/5, 3/10, 1/5, 3/10, 9/10, none⟩], 5⟩).x ∧
    0 ≤ (calculate_target_crop {} ⟨[⟨2/5, 3/10, 1/5, 3/10, 9/10, none⟩], 5⟩).y ∧
    (calculate_target_crop {} ⟨[⟨2/5, 3/10, 1/5, 3/10, 9/10, none⟩], 5⟩).x +
      (calculate_target_crop {} ⟨[⟨2/5, 3/10, 1/5, 3/10, 9/10, none⟩], 5⟩).width ≤ 1 ∧
    (calculate_target_crop {} ⟨[⟨2/5, 3/10, 1/5, 3/10, 9/10, none⟩], 5⟩).y +
      (calculate_target_crop {} ⟨[⟨2/5, 3/10, 1/5, 3/10, 9/10, none⟩], 5⟩).height ≤ 1 :=
  ⟨⟨by norm_num, by norm_num, rfl⟩,
    c1_target_crop_spec {} ⟨[⟨2/5, 3/10, 1/5, 3/10, 9/10, none⟩], 5⟩
      (by norm_num) (by norm_num) rfl⟩

/-! C6: track lifecycle and identity lemmas. -/

/-- The per-track update step preserves the track identity. -/
theorem upd_one_id (m : ℕ) (o : ℕ → Option Bbox) (tr : TrackedFace) :
    (upd_one m o tr).1.tracking_id = tr.tracking_id := by
  unfold upd_one
  rcases o tr.tracking_id with _ | b
  · rfl
  · dsimp only
    split <;> rfl

/-- A track aged beyond the lost ceiling is flagged lost and marked for
removal, whatever its tracker outcome. -/
theorem upd_one_removed (m : ℕ) (o : ℕ → Option Bbox) (tr : TrackedFace)
    (h : m < tr.frames_since_detection + 1) :
    (upd_one m o tr).2 = true ∧ (upd_one m o tr).1.is_lost = true := by
  unfold upd_one
  rcases o tr.tracking_id with _ | b
  · exact ⟨rfl, rfl⟩
  · dsimp only
    rw [if_pos h]
    exact ⟨rfl, rfl⟩

/-- Every track surviving FaceTracker.update is the stepped image of a track
of the previous table whose removal flag is false. -/
theorem update_mem_inv (t : FaceTracker) (outcome : ℕ → Option Bbox) :
    ∀ tr2 ∈ (t.update outcome).1, ∃ tr0 ∈ t.tracked_faces,
      (upd_one t.max_frames_lost outcome tr0).1 = tr2 ∧
      (upd_one t.max_frames_lost outcome tr0).2 = false := by
  intro tr2 h2
  simp only [FaceTracker.update, List.mem_map, List.mem_filter,
    Bool.not_eq_eq_eq_not, Bool.not_true] at h2
  obtain ⟨p, ⟨hp1, hp2⟩, hp3⟩ := h2
  obtain ⟨tr0, h0, h0e⟩ := hp1
  refine ⟨tr0, h0, ?_, ?_⟩
  · rw [h0e]; exact hp3
  · rw [h0e]; exact hp2

/-- Fresh tracks receive identities in the assigned consecutive range. -/
theorem init_tracks_from_mem :
    ∀ (ds : List Bbox) (n : ℕ) (tr : TrackedFace),
      tr ∈ init_tracks_from n ds →
        n ≤ tr.tracking_id ∧ tr.tracking_id < n + ds.length := by
  intro ds
  induction ds with
  | nil => intro n tr h; simp [init_tracks_from] at h
  | cons b bs ih =>
    intro n tr h
    rw [init_tracks_from] at h
    rcases List.mem_cons.mp h with h | h
    · subst h; simp
    · obtain ⟨h1, h2⟩ := ih (n + 1) tr h
      refine ⟨by omega, ?_⟩
      simp only [List.length_cons]
      omega

/-- The matching loop never changes the identities (or the order) of the
track table. -/
theorem match_fold_ids (thr : ℚ) :
    ∀ (ds : List (ℕ × Bbox)) (acc : MatchAcc),
      ((ds.foldl (match_step thr) acc).faces).map TrackedFace.tracking_id
        = acc.faces.map TrackedFace.tracking_id := by
  intro ds
  induction ds with
  | nil => intro acc; rfl
  | cons p ps ih =>
    intro acc
    rw [List.foldl_cons, ih]
    rcases h : best_match acc.faces acc.matched_tracks p.2 thr with _ | tid
    · simp [match_step, h]
    · simp only [match_step, h, List.map_map]
      refine List.map_congr_left fun tr _ => ?_
      by_cases htr : tr.tracking_id = tid <;> simp [htr]

/-- The unmatched-detection loop appends exactly one fresh consecutive-id
track per unmatched detection, in order. -/
theorem new_tracks_spec (mD : List ℕ) :
    ∀ (ds : List (ℕ × Bbox)) (l0 : List TrackedFace) (n0 : ℕ),
      ds.foldl (new_track_step mD) (l0, n0)
        = (l0 ++ init_tracks_from n0 ((ds.filter fun p => !decide (p.1 ∈ mD)).map Prod.snd),
           n0 + ((ds.filter fun p => !decide (p.1 ∈ mD)).map Prod.snd).length) := by
  intro ds
  induction ds with
  | nil => intro l0 n0; simp [init_tracks_from]
  | cons p ps ih =>
    intro l0 n0
    rw [List.foldl_cons]
    by_cases hp : p.1 ∈ mD
    · rw [show new_track_step mD (l0, n0) p = (l0, n0) from by
        simp [new_track_step, hp]]
      rw [ih l0 n0]
      simp [List.filter_cons, hp]
    · rw [show new_track_step mD (l0, n0) p
          = (l0 ++ [⟨n0, p.2, 1, 0, false⟩], n0 + 1) from by
        simp [new_track_step, hp]]
      rw [ih]
      have hfilter : (List.filter (fun q => !decide (q.1 ∈ mD)) (p :: ps))
          = p :: List.filter (fun q => !decide (q.1 ∈ mD)) ps := by
        simp [List.filter_cons, hp]
      rw [hfilter]
      simp only [List.map_cons, List.length_cons, init_tracks_from,
        List.append_assoc, List.singleton_append, Prod.mk.injEq]
      refine ⟨?_, by omega⟩
      first
      | rfl
      | trivial

/-- Structure of refresh_tracks in the main branch: the matched table (same
identities, same order) followed by fresh consecutive-id tracks for the
unmatched detections, and the advanced id counter. -/
theorem refresh_tracks_spec (t : FaceTracker) (dets : List Bbox) (thr : ℚ)
    (hd : dets ≠ []) (ht : t.tracked_faces ≠ []) :
    (t.refresh_tracks dets thr).2.tracked_faces
      = (refresh_acc t dets thr).faces ++
        init_tracks_from t.next_id
          ((dets.enum.filter fun p =>
            !decide (p.1 ∈ (refresh_acc t dets thr).matched_detections)).map Prod.snd) ∧
    (t.refresh_tracks dets thr).2.next_id
      = t.next_id +
        ((dets.enum.filter fun p =>
          !decide (p.1 ∈ (refresh_acc t dets thr).matched_detections)).map Prod.snd).length := by
  have hd' : dets.isEmpty = false := by
    rcases dets with _ | ⟨a, as⟩
    · exact absurd rfl hd
    · rfl
  have ht' : t.tracked_faces.isEmpty = false := by
    rcases h : t.tracked_faces with _ | ⟨a, as⟩
    · exact absurd h ht
    · rfl
  have h1 : t.refresh_tracks dets thr
      = ((refresh_acc t dets thr).faces
            ++ (dets.enum.foldl (new_track_step (refresh_acc t dets thr).matched_detections)
                ([], t.next_id)).1,
          { t with
              tracked_faces := (refresh_acc t dets thr).faces
                ++ (dets.enum.foldl (new_track_step (refresh_acc t dets thr).matched_detections)
                    ([], t.next_id)).1,
              next_id := (dets.enum.foldl (new_track_step (refresh_acc t dets thr).matched_detections)
                ([], t.next_id)).2 }) := by
    unfold FaceTracker.refresh_tracks
    rw [if_neg (by simp [hd']), if_neg (by simp [ht'])]
  rw [h1, new_tracks_spec]
  exact ⟨rfl, rfl⟩

/-- C6: a track whose framesSinceDetection exceeds the lost timeout is marked
lost by its update step and is absent from both the faces reported by update
and the post-call table (hence from every later cycle); and across update,
init_tracks, refresh_tracks and clear the id counter never decreases, every
stored identity stays below it, and every identity in a new table is either a
pre-existing one or a fresh one at least the old counter — so a removed
identity is never assigned to a later track. -/
theorem c6_track_lifecycle (t : FaceTracker) (outcome : ℕ → Option Bbox)
    (ds dets : List Bbox) (thr : ℚ)
    (hnodup : (t.tracked_faces.map TrackedFace.tracking_id).Nodup)
    (hlt : ∀ tr ∈ t.tracked_faces, tr.tracking_id < t.next_id) :
    (∀ tr ∈ t.tracked_faces, t.max_frames_lost < tr.frames_since_detection →
      (upd_one t.max_frames_lost outcome tr).1.is_lost = true ∧
      (∀ tr2 ∈ (t.update outcome).1, tr2.tracking_id ≠ tr.tracking_id) ∧
      (∀ tr2 ∈ (t.update outcome).2.tracked_faces, tr2.tracking_id ≠ tr.tracking_id)) ∧
    ((t.update outcome).2.next_id = t.next_id ∧
      ∀ tr2 ∈ (t.update outcome).2.tracked_faces,
        tr2.tracking_id < t.next_id ∧
          ∃ tr0 ∈ t.tracked_faces, tr0.tracking_id = tr2.tracking_id) ∧
    (t.next_id ≤ (t.init_tracks ds).2.next_id ∧
      ∀ tr2 ∈ (t.init_tracks ds).2.tracked_faces,
        t.next_id ≤ tr2.tracking_id ∧ tr2.tracking_id < (t.init_tracks ds).2.next_id) ∧
    (t.next_id ≤ (t.refresh_tracks dets thr).2.next_id ∧
      ∀ tr2 ∈ (t.refresh_tracks dets thr).2.tracked_faces,
        tr2.tracking_id < (t.refresh_tracks dets thr).2.next_id ∧
          (tr2.tracking_id < t.next_id →
            ∃ tr0 ∈ t.tracked_faces, tr0.tracking_id = tr2.tracking_id)) ∧
    (t.clear.tracked_faces = [] ∧ t.clear.next_id = t.next_id) := by
  have hupdmem := update_mem_inv t outcome
  have hsame : (t.update outcome).2.tracked_faces = (t.update outcome).1 := rfl
  refine ⟨?_, ⟨rfl, ?_⟩, ⟨Nat.le_add_right _ _, ?_⟩, ?_, ⟨rfl, rfl⟩⟩
  · intro tr htr hage
    have hrem := upd_one_removed t.max_frames_lost outcome tr (by omega)
    have hexcl : ∀ tr2 ∈ (t.update outcome).1, tr2.tracking_id ≠ tr.tracking_id := by
      intro tr2 h2 heq
      obtain ⟨tr0, h0, he, hf⟩ := hupdmem tr2 h2
      have hid0 : tr0.tracking_id = tr.tracking_id := by
        rw [← upd_one_id t.max_frames_lost outcome tr0, he, heq]
      have : tr0 = tr := List.inj_on_of_nodup_map hnodup h0 htr hid0
      rw [this, hrem.1] at hf
      exact Bool.noConfusion hf
    exact ⟨hrem.2, hexcl, fun tr2 h2 => hexcl tr2 (hsame ▸ h2)⟩
  · intro tr2 h2
    obtain ⟨tr0, h0, he, _⟩ := hupdmem tr2 (hsame ▸ h2)
    have hid0 : tr0.tracking_id = tr2.tracking_id := by
      rw [← upd_one_id t.max_frames_lost outcome tr0, he]
    exact ⟨hid0 ▸ hlt tr0 h0, tr0, h0, hid0⟩
  · intro tr2 h2
    exact init_tracks_from_mem ds t.next_id tr2 h2
  · by_cases hd0 : dets = []
    · subst hd0
      exact ⟨le_refl _, fun tr2 h2 => ⟨hlt tr2 h2, fun _ => ⟨tr2, h2, rfl⟩⟩⟩
    · by_cases ht0 : t.tracked_faces = []
      · have hbr : t.refresh_tracks dets thr = t.init_tracks dets := by
          unfold FaceTracker.refresh_tracks
          rw [if_neg (by simp [hd0]), if_pos (by simp [ht0])]
        rw [hbr]
        refine ⟨Nat.le_add_right _ _, fun tr2 h2 => ?_⟩
        obtain ⟨hge, hlt2⟩ := init_tracks_from_mem dets t.next_id tr2 h2
        exact ⟨hlt2, fun hc => absurd hc (by omega)⟩
      · obtain ⟨hfaces, hnid⟩ := refresh_tracks_spec t dets thr hd0 ht0
        refine ⟨by rw [hnid]; exact Nat.le_add_right _ _, fun tr2 h2 => ?_⟩
        rw [hfaces] at h2
        rcases List.mem_append.mp h2 with h2 | h2
        · have hid : tr2.tracking_id
              ∈ (refresh_acc t dets thr).faces.map TrackedFace.tracking_id :=
            List.mem_map_of_mem _ h2
          rw [show (refresh_acc t dets thr).faces.map TrackedFace.tracking_id
              = t.tracked_faces.map TrackedFace.tracking_id from
            match_fold_ids thr dets.enum ⟨t.tracked_faces, [], []⟩] at hid
          obtain ⟨tr0, h0, h0e⟩ := List.mem_map.mp hid
          have := hlt tr0 h0
          exact ⟨by rw [hnid]; omega, fun _ => ⟨tr0, h0, h0e⟩⟩
        · obtain ⟨hge, hlt2⟩ := init_tracks_from_mem _ t.next_id tr2 h2
          exact ⟨by rw [hnid]; omega, fun hc => absurd hc (by omega)⟩

/-- C6 witness: a two-track table with one track aged past the timeout, a
fresh detection list for init_tracks / refresh_tracks, and the concrete
oracle; the aged identity 0 is flagged lost and vanishes from the update
result, clear empties the table, and the id counter never goes backward. -/
theorem c6_witness :
    (([⟨0, (0, 0, 10, 10), 1, 31, false⟩, ⟨1, (50, 50, 10, 10), 1, 0, false⟩]
        : List TrackedFace).map TrackedFace.tracking_id).Nodup ∧
    (∀ tr ∈ ([⟨0, (0, 0, 10, 10), 1, 31, false⟩, ⟨1, (50, 50, 10, 10), 1, 0, false⟩]
        : List TrackedFace), tr.tracking_id < 2) ∧
    (upd_one 30 c6_update_oracle ⟨0, (0, 0, 10, 10), 1, 31, false⟩).1.is_lost = true ∧
    (∀ tr2 ∈ (FaceTracker.update
        ⟨[⟨0, (0, 0, 10, 10), 1, 31, false⟩, ⟨1, (50, 50, 10, 10), 1, 0, false⟩], 2, 30⟩
        c6_update_oracle).1, tr2.tracking_id ≠ 0) ∧
    (FaceTracker.clear
        ⟨[⟨0, (0, 0, 10, 10), 1, 31, false⟩, ⟨1, (50, 50, 10, 10), 1, 0, false⟩], 2, 30⟩).tracked_faces
      = [] ∧
    2 ≤ (FaceTracker.init_tracks
        ⟨[⟨0, (0, 0, 10, 10), 1, 31, false⟩, ⟨1, (50, 50, 10, 10), 1, 0, false⟩], 2, 30⟩
        [(7, 7, 7, 7)]).2.next_id := by
  have H := c6_track_lifecycle
    ⟨[⟨0, (0, 0, 10, 10), 1, 31, false⟩, ⟨1, (50, 50, 10, 10), 1, 0, false⟩], 2, 30⟩
    c6_update_oracle [(7, 7, 7, 7)] [(1, 0, 10, 10)] (3 / 10)
    (by decide) (by decide)
  have HA := H.1 ⟨0, (0, 0, 10, 10), 1, 31, false⟩ (by decide) (by decide)
  exact ⟨by decide, by decide, HA.1, HA.2.1, H.2.2.2.2.1, H.2.2.1.1⟩

/-! C5: the association loop of refresh_tracks versus the claim's algorithm. -/

/-- Raising the bar of pick_above filters its result: the selection at bar v
is the selection at a lower bar a kept only when it beats v. -/
theorem pick_above_raise (thr : ℚ) (det : Bbox) :
    ∀ (l : List (ℕ × Bbox)) (a v : ℚ), a ≤ v →
      pick_above thr v det l =
        (match pick_above thr a det l with
         | none => none
         | some q => if v < q.2 then some q else none) := by
  intro l
  induction l with
  | nil => intro a v hav; rfl
  | cons p ps ih =>
    intro a v hav
    have hv := ih a v hav
    rcases hps : pick_above thr a det ps with _ | q
    · rw [hps] at hv
      simp only at hv
      by_cases h1 : v < calc_iou p.2 det ∧ thr ≤ calc_iou p.2 det
      · have h2 : a < calc_iou p.2 det ∧ thr ≤ calc_iou p.2 det :=
          ⟨lt_of_le_of_lt hav h1.1, h1.2⟩
        simp only [pick_above, hv, hps, if_pos h1, if_pos h2, if_pos h1.1]
      · by_cases h2 : a < calc_iou p.2 det ∧ thr ≤ calc_iou p.2 det
        · have h3 : ¬ v < calc_iou p.2 det := fun hc => h1 ⟨hc, h2.2⟩
          simp only [pick_above, hv, hps, if_neg h1, if_pos h2, if_neg h3]
        · simp only [pick_above, hv, hps, if_neg h1, if_neg h2]
    · rw [hps] at hv
      simp only at hv
      by_cases hvq : v < q.2
      · rw [if_pos hvq] at hv
        by_cases hcond : (v < calc_iou p.2 det ∧ thr ≤ calc_iou p.2 det) ∧
            q.2 ≤ calc_iou p.2 det
        · have hconda : (a < calc_iou p.2 det ∧ thr ≤ calc_iou p.2 det) ∧
              q.2 ≤ calc_iou p.2 det :=
            ⟨⟨lt_of_le_of_lt hav hcond.1.1, hcond.1.2⟩, hcond.2⟩
          simp only [pick_above, hv, hps, if_pos hcond, if_pos hconda,
            if_pos hcond.1.1]
        · by_cases hconda : (a < calc_iou p.2 det ∧ thr ≤ calc_iou p.2 det) ∧
              q.2 ≤ calc_iou p.2 det
          · exact absurd ⟨⟨lt_of_lt_of_le hvq hconda.2, hconda.1.2⟩, hconda.2⟩ hcond
          · simp only [pick_above, hv, hps, if_neg hcond, if_neg hconda, if_pos hvq]
      · rw [if_neg hvq] at hv
        have hq2v : q.2 ≤ v := not_lt.mp hvq
        by_cases h1 : v < calc_iou p.2 det ∧ thr ≤ calc_iou p.2 det
        · have hconda : (a < calc_iou p.2 det ∧ thr ≤ calc_iou p.2 det) ∧
              q.2 ≤ calc_iou p.2 det :=
            ⟨⟨lt_of_le_of_lt hav h1.1, h1.2⟩, le_trans hq2v (le_of_lt h1.1)⟩
          simp only [pick_above, hv, hps, if_pos h1, if_pos hconda, if_pos h1.1]
        · by_cases hconda : (a < calc_iou p.2 det ∧ thr ≤ calc_iou p.2 det) ∧
              q.2 ≤ calc_iou p.2 det
          · have h3 : ¬ v < calc_iou p.2 det := fun hc => h1 ⟨hc, hconda.1.2⟩
            simp only [pick_above, hv, hps, if_neg h1, if_pos hconda, if_neg h3]
          · simp only [pick_above, hv, hps, if_neg h1, if_neg hconda, if_neg hvq]

/-- Eligible pairs of a cons cell. -/
theorem elig_pairs_cons (matched : List ℕ) (tr : TrackedFace)
    (rest : List TrackedFace) :
    elig_pairs matched (tr :: rest)
      = if tr.tracking_id ∈ matched then elig_pairs matched rest
        else (tr.tracking_id, tr.bbox) :: elig_pairs matched rest := by
  by_cases h : tr.tracking_id ∈ matched <;> simp [elig_pairs, List.filter_cons, h]

/-- The best_iou / best_track_id scan of the source equals the first-maximizer
selection pick_above over the eligible pairs. -/
theorem bm_fold_pick (matched : List ℕ) (det : Bbox) (thr : ℚ) :
    ∀ (faces : List TrackedFace) (a : ℚ) (o : Option ℕ),
      faces.foldl (bm_step matched det thr) (a, o) =
        (match pick_above thr a det (elig_pairs matched faces) with
         | none => (a, o)
         | some q => (q.2, some q.1)) := by
  intro faces
  induction faces with
  | nil => intro a o; rfl
  | cons tr rest ih =>
    intro a o
    rw [List.foldl_cons]
    by_cases htr : tr.tracking_id ∈ matched
    · rw [show bm_step matched det thr (a, o) tr = (a, o) from by
        simp [bm_step, htr]]
      rw [ih, elig_pairs_cons, if_pos htr]
    · rw [elig_pairs_cons, if_neg htr]
      by_cases hcond : a < calc_iou tr.bbox det ∧ thr ≤ calc_iou tr.bbox det
      · rw [show bm_step matched det thr (a, o) tr
            = (calc_iou tr.bbox det, some tr.tracking_id) from by
          simp [bm_step, htr, hcond]]
        rw [ih]
        have hM := pick_above_raise thr det (elig_pairs matched rest) a
          (calc_iou tr.bbox det) (le_of_lt hcond.1)
        rcases hrest : pick_above thr a det (elig_pairs matched rest) with _ | q
        · rw [hrest] at hM
          simp only at hM
          simp only [pick_above, hM, hrest, if_pos hcond]
        · rw [hrest] at hM
          simp only at hM
          by_cases hq : calc_iou tr.bbox det < q.2
          · rw [if_pos hq] at hM
            have hnc : ¬ ((a < calc_iou tr.bbox det ∧ thr ≤ calc_iou tr.bbox det) ∧
                q.2 ≤ calc_iou tr.bbox det) :=
              fun hc => absurd hq (not_lt.mpr hc.2)
            simp only [pick_above, hM, hrest, if_neg hnc]
          · rw [if_neg hq] at hM
            have hq2 : q.2 ≤ calc_iou tr.bbox det := not_lt.mp hq
            simp only [pick_above, hM, hrest, if_pos (And.intro hcond hq2)]
      · rw [show bm_step matched det thr (a, o) tr = (a, o) from by
          simp [bm_step, htr, hcond]]
        rw [ih]
        rcases hrest : pick_above thr a det (elig_pairs matched rest) with _ | q
        · simp only [pick_above, hrest, if_neg hcond]
        · have hnc : ¬ ((a < calc_iou tr.bbox det ∧ thr ≤ calc_iou tr.bbox det) ∧
              q.2 ≤ calc_iou tr.bbox det) := fun hc => hcond hc.1
          simp only [pick_above, hrest, if_neg hnc]

/-- FacesRel is reflexive: the untouched table relates to itself. -/
theorem faces_rel_refl (matched : List ℕ) (l : List TrackedFace) :
    FacesRel matched l l :=
  List.forall₂_same.mpr fun _ _ => ⟨rfl, fun _ => rfl⟩

/-- Folding the best-match scan over the current table gives the same result
as over the original table: entries already matched are skipped, and the
others are untouched. -/
theorem bm_fold_rel (matched : List ℕ) (det : Bbox) (thr : ℚ) :
    ∀ {orig cur : List TrackedFace}, FacesRel matched orig cur →
      ∀ acc, cur.foldl (bm_step matched det thr) acc
        = orig.foldl (bm_step matched det thr) acc := by
  intro orig cur h
  induction h with
  | nil => intro acc; rfl
  | @cons a b l1 l2 hab htail ih =>
    intro acc
    rw [List.foldl_cons, List.foldl_cons]
    obtain ⟨hid, heq⟩ := hab
    by_cases hm : a.tracking_id ∈ matched
    · have hmb : b.tracking_id ∈ matched := hid ▸ hm
      rw [show bm_step matched det thr acc b = acc from by simp [bm_step, hmb],
        show bm_step matched det thr acc a = acc from by simp [bm_step, hm]]
      exact ih acc
    · rw [← heq hm]
      exact ih _

/-- Matching one more track preserves the table relation: only the newly
matched identity is modified, and it joins the matched set. -/
theorem faces_rel_step (matched : List ℕ) (tid : ℕ) (newb : Bbox) :
    ∀ {orig cur : List TrackedFace}, FacesRel matched orig cur →
      FacesRel (tid :: matched) orig
        (cur.map fun tr => if tr.tracking_id = tid then
          { tr with bbox := newb, confidence := 1, frames_since_detection := 0 }
          else tr) := by
  intro orig cur h
  induction h with
  | nil => exact List.Forall₂.nil
  | @cons a b l1 l2 hab htail ih =>
    refine List.Forall₂.cons ?_ ih
    obtain ⟨hid, heq⟩ := hab
    constructor
    · by_cases hb : b.tracking_id = tid <;> simp [hb, hid]
    · intro hnm
      have hna : a.tracking_id ∉ matched := fun hc => hnm (List.mem_cons_of_mem _ hc)
      have hne : a.tracking_id ≠ tid := fun hc => hnm (hc ▸ List.mem_cons_self _ _)
      have hba : a = b := heq hna
      have hbne : ¬ b.tracking_id = tid := by rw [← hid]; exact hne
      simp only [hbne, if_false, ite_false, hba]

/-- The eligible pairs are the pair view of the table filtered on identity. -/
theorem elig_pairs_eq (matched : List ℕ) :
    ∀ orig : List TrackedFace,
      elig_pairs matched orig
        = (orig.map fun tr => (tr.tracking_id, tr.bbox)).filter
            fun p => !decide (p.1 ∈ matched) := by
  intro orig
  induction orig with
  | nil => rfl
  | cons tr rest ih =>
    rw [elig_pairs_cons]
    by_cases h : tr.tracking_id ∈ matched <;>
      simp [List.filter_cons, h, ih]

/-- The matched id and index lists of the loop grow in lockstep. -/
theorem match_fold_len (thr : ℚ) :
    ∀ (ds : List (ℕ × Bbox)) (acc : MatchAcc),
      acc.matched_tracks.length = acc.matched_detections.length →
      (ds.foldl (match_step thr) acc).matched_tracks.length
        = (ds.foldl (match_step thr) acc).matched_detections.length := by
  intro ds
  induction ds with
  | nil => intro acc h; exact h
  | cons d rest ih =>
    intro acc h
    rw [List.foldl_cons]
    rcases hb : best_match acc.faces acc.matched_tracks d.2 thr with _ | tid
    · rw [show match_step thr acc d = acc from by simp [match_step, hb]]
      exact ih acc h
    · rw [show match_step thr acc d
          = ⟨acc.faces.map fun tr => if tr.tracking_id = tid then
              { tr with bbox := d.2, confidence := 1, frames_since_detection := 0 }
              else tr,
            tid :: acc.matched_tracks, d.1 :: acc.matched_detections⟩ from by
        simp [match_step, hb]]
      exact ih _ (by simpa using h)

/-- The matching loop of refresh_tracks computes exactly the per-detection
greedy association over the original track table. -/
theorem match_fold_align (thr : ℚ) (orig : List TrackedFace) :
    ∀ (ds : List (ℕ × Bbox)) (acc : MatchAcc),
      FacesRel acc.matched_tracks orig acc.faces →
      acc.matched_tracks.length = acc.matched_detections.length →
      ((ds.foldl (match_step thr) acc).matched_tracks.zip
          (ds.foldl (match_step thr) acc).matched_detections).reverse
        = (acc.matched_tracks.zip acc.matched_detections).reverse
          ++ ordered_greedy thr (orig.map fun tr => (tr.tracking_id, tr.bbox)) ds
              acc.matched_tracks := by
  intro ds
  induction ds with
  | nil => intro acc hrel hlen; simp [ordered_greedy]
  | cons d rest ih =>
    intro acc hrel hlen
    rw [List.foldl_cons]
    have hbm : best_match acc.faces acc.matched_tracks d.2 thr
        = (pick_above thr 0 d.2 ((orig.map fun tr => (tr.tracking_id, tr.bbox)).filter
            fun p => !decide (p.1 ∈ acc.matched_tracks))).map Prod.fst := by
      unfold best_match
      rw [bm_fold_rel acc.matched_tracks d.2 thr hrel, bm_fold_pick,
        elig_pairs_eq]
      rcases hq0 : pick_above thr 0 d.2 ((orig.map fun tr => (tr.tracking_id, tr.bbox)).filter
          fun p => !decide (p.1 ∈ acc.matched_tracks)) with _ | q <;> simp [hq0]
    rcases hpick : pick_above thr 0 d.2 ((orig.map fun tr => (tr.tracking_id, tr.bbox)).filter
        fun p => !decide (p.1 ∈ acc.matched_tracks)) with _ | q
    · have hstep : match_step thr acc d = acc := by
        rw [match_step.eq_def, hbm, hpick]
        rfl
      rw [hstep, ih acc hrel hlen]
      rw [ordered_greedy, hpick]
    · have hstep : match_step thr acc d
          = ⟨acc.faces.map fun tr => if tr.tracking_id = q.1 then
              { tr with bbox := d.2, confidence := 1, frames_since_detection := 0 }
              else tr,
            q.1 :: acc.matched_tracks, d.1 :: acc.matched_detections⟩ := by
        rw [match_step.eq_def, hbm, hpick]
        rfl
      rw [hstep]
      have hrel' : FacesRel (q.1 :: acc.matched_tracks) orig
          (acc.faces.map fun tr => if tr.tracking_id = q.1 then
            { tr with bbox := d.2, confidence := 1, frames_since_detection := 0 }
            else tr) :=
        faces_rel_step acc.matched_tracks q.1 d.2 hrel
      have hlen' : (q.1 :: acc.matched_tracks).length
          = (d.1 :: acc.matched_detections).length := by simpa using hlen
      have hih := ih ⟨acc.faces.map fun tr => if tr.tracking_id = q.1 then
          { tr with bbox := d.2, confidence := 1, frames_since_detection := 0 }
          else tr,
        q.1 :: acc.matched_tracks, d.1 :: acc.matched_detections⟩ hrel' hlen'
      rw [hih]
      rw [ordered_greedy, hpick]
      simp [List.zip_cons_cons, List.reverse_cons, List.append_assoc]

/-- C5 (amended): refresh_tracks associates detections to tracks by iterating
over the detections in list order, assigning each detection the not yet
matched track of highest IoU — ties broken by the earlier track in the table,
which is the lower identity since identities are assigned in increasing
order — provided that IoU is positive and at least the threshold; the matched
tracks keep their identities and order, and every detection left unmatched
spawns a fresh consecutive-identity track appended after the table. -/
theorem c5_ordered_greedy_assoc (t : FaceTracker) (dets : List Bbox) (thr : ℚ)
    (hd : dets ≠ []) (ht : t.tracked_faces ≠ []) :
    refresh_matching t dets thr
      = ordered_greedy thr (t.tracked_faces.map fun tr => (tr.tracking_id, tr.bbox))
          dets.enum [] ∧
    ((t.refresh_tracks dets thr).2.tracked_faces.take t.tracked_faces.length).map
        TrackedFace.tracking_id
      = t.tracked_faces.map TrackedFace.tracking_id ∧
    (t.refresh_tracks dets thr).2.tracked_faces.drop t.tracked_faces.length
      = init_tracks_from t.next_id
          ((dets.enum.filter fun p =>
            !decide (p.1 ∈ (refresh_matching t dets thr).map Prod.snd)).map Prod.snd) := by
  have hmain := match_fold_align thr t.tracked_faces dets.enum
    ⟨t.tracked_faces, [], []⟩ (faces_rel_refl [] t.tracked_faces) rfl
  have hpart1 : refresh_matching t dets thr
      = ordered_greedy thr (t.tracked_faces.map fun tr => (tr.tracking_id, tr.bbox))
          dets.enum [] := by
    unfold refresh_matching refresh_acc
    simpa using hmain
  have hids := match_fold_ids thr dets.enum ⟨t.tracked_faces, [], []⟩
  have hlenf : (refresh_acc t dets thr).faces.length = t.tracked_faces.length := by
    have h2 := congrArg List.length hids
    simpa [refresh_acc] using h2
  obtain ⟨hfaces, _⟩ := refresh_tracks_spec t dets thr hd ht
  have hsnd : (refresh_matching t dets thr).map Prod.snd
      = (refresh_acc t dets thr).matched_detections.reverse := by
    have hlen2 := match_fold_len thr dets.enum ⟨t.tracked_faces, [], []⟩ rfl
    unfold refresh_matching
    rw [List.map_reverse, List.map_snd_zip]
    exact le_of_eq (by unfold refresh_acc at *; omega)
  refine ⟨hpart1, ?_, ?_⟩
  · rw [hfaces, ← hlenf, List.take_left]
    simpa [refresh_acc] using hids
  · rw [hfaces, ← hlenf, List.drop_left]
    congr 1
    congr 1
    apply List.filter_congr
    intro p _
    have hmem : (p.1 ∈ (refresh_matching t dets thr).map Prod.snd)
        ↔ p.1 ∈ (refresh_acc t dets thr).matched_detections := by
      rw [hsnd, List.mem_reverse]
    simp [hmem]

/-- C5 counterexample: two tracks and two detections where the code (scanning
detections in order) matches track 0 to detection 0 with IoU 1/3, while the
claim's globally-highest-IoU-first algorithm matches track 0 to detection 1
with IoU 9/11; the two associations differ. -/
theorem c5_counterexample :
    refresh_matching
        ⟨[⟨0, (0, 0, 10, 10), 1, 0, false⟩, ⟨1, (100, 100, 10, 10), 1, 0, false⟩], 2, 30⟩
        [(5, 0, 10, 10), (1, 0, 10, 10)] (3 / 10) = [(0, 0)] ∧
    claimed_global_matching
        ⟨[⟨0, (0, 0, 10, 10), 1, 0, false⟩, ⟨1, (100, 100, 10, 10), 1, 0, false⟩], 2, 30⟩
        [(5, 0, 10, 10), (1, 0, 10, 10)] (3 / 10) = [(0, 1)] ∧
    ([((0 : ℕ), (0 : ℕ))] ≠ [((0 : ℕ), (1 : ℕ))]) := by
  refine ⟨?_, ?_, by decide⟩
  · norm_num [refresh_matching, refresh_acc, match_step, best_match, bm_step,
      calc_iou, List.enum, List.enumFrom]
  · norm_num [claimed_global_matching, global_greedy, all_pairs, pick_pair,
      calc_iou, List.enum, List.enumFrom]

/-- C5 witness: the amended association applied to a concrete table of two
tracks and two detections. -/
theorem c5_witness :
    refresh_matching
        ⟨[⟨0, (0, 0, 10, 10), 1, 0, false⟩, ⟨1, (100, 100, 10, 10), 1, 0, false⟩], 2, 30⟩
        [(5, 0, 10, 10), (200, 0, 10, 10)] (3 / 10)
      = ordered_greedy (3 / 10)
          (([⟨0, (0, 0, 10, 10), 1, 0, false⟩, ⟨1, (100, 100, 10, 10), 1, 0, false⟩]
            : List TrackedFace).map fun tr => (tr.tracking_id, tr.bbox))
          ([(5, 0, 10, 10), (200, 0, 10, 10)] : List Bbox).enum [] ∧
    ((FaceTracker.refresh_tracks
        ⟨[⟨0, (0, 0, 10, 10), 1, 0, false⟩, ⟨1, (100, 100, 10, 10), 1, 0, false⟩], 2, 30⟩
        [(5, 0, 10, 10), (200, 0, 10, 10)] (3 / 10)).2.tracked_faces.take 2).map
        TrackedFace.tracking_id
      = ([⟨0, (0, 0, 10, 10), 1, 0, false⟩, ⟨1, (100, 100, 10, 10), 1, 0, false⟩]
          : List TrackedFace).map TrackedFace.tracking_id ∧
    (FaceTracker.refresh_tracks
        ⟨[⟨0, (0, 0, 10, 10), 1, 0, false⟩, ⟨1, (100, 100, 10, 10), 1, 0, false⟩], 2, 30⟩
        [(5, 0, 10, 10), (200, 0, 10, 10)] (3 / 10)).2.tracked_faces.drop 2
      = init_tracks_from 2
          ((([(5, 0, 10, 10), (200, 0, 10, 10)] : List Bbox).enum.filter fun p =>
            !decide (p.1 ∈ (refresh_matching
              ⟨[⟨0, (0, 0, 10, 10), 1, 0, false⟩, ⟨1, (100, 100, 10, 10), 1, 0, false⟩], 2, 30⟩
              [(5, 0, 10, 10), (200, 0, 10, 10)] (3 / 10)).map Prod.snd)).map Prod.snd) :=
  c5_ordered_greedy_assoc
    ⟨[⟨0, (0, 0, 10, 10), 1, 0, false⟩, ⟨1, (100, 100, 10, 10), 1, 0, false⟩], 2, 30⟩
    [(5, 0, 10, 10), (200, 0, 10, 10)] (3 / 10)
    (List.cons_ne_nil _ _) (List.cons_ne_nil _ _)
